import Mathlib

/-!
Verification development for the training/evaluation orchestration engine of
the Iceberg classifier (src/cnn/model.py, class BaseBinaryClassifier).

The embedding models scalars (losses, scores, targets) as rationals, the
classifier parameters as an abstract type threaded through the optimizer
step, and the stateful methods of BaseBinaryClassifier as explicit state
passing functions that also produce a trace of observable events
(mode switches, logging, checkpoint saves) and an `Except`-style result
(Python exceptions such as ZeroDivisionError and StopIteration become error
values that carry the state at the point of the raise, since mutations made
before an exception persist in Python).
-/

deriving instance DecidableEq for Except

namespace Model

/-- Classifier mode, as switched by nn.Module.train() / nn.Module.eval(). -/
inductive Mode
  | training
  | inference
  deriving DecidableEq

/-- Failure conditions.  `stopIteration`, `zeroDivisionError` and `keyError`
are the Python exceptions the code in src/cnn/model.py can actually raise;
`metricUndefined` is the ranking-metric failure of the spec (raised by the
spec-modelled roc_auc); `noTrainingData` and `noValidationData` are the
conditions named by the spec, included so that the spec's claims about them
can be stated (the code never produces them). -/
inductive PyError
  | stopIteration
  | zeroDivisionError
  | keyError
  | metricUndefined
  | noTrainingData
  | noValidationData
  deriving DecidableEq

/-- Observable events of one run: optimizer/loss calls, mode switches,
logging, and checkpoint saves (epoch number as in the path "clf_<e+1>_fold_<fold>",
the fold number, and the is_best flag passed to BaseModel.save). -/
inductive Event
  | forwardPass (scores : List ℚ)
  | classified (classes : List ℚ)
  | zeroGrad
  | lossComputed (value : ℚ)
  | backward
  | optimStep
  | accumulated
  | evalMode
  | trainMode
  | logged (keys : List String) (logGrads : Bool)
  | checkpoint (epochPlusOne : ℕ) (fold : ℕ) (isBest : Bool)
  deriving DecidableEq

/-- Modelled from the spec: the PredictionAccumulator kept by BaseModel
(base/model.py is not under src/): per-epoch ordered sequences keyed
"target", "predicted", "probs", "train_loss" (spec section 4.1). -/
structure Predictions where
  target : List ℚ
  predicted : List ℚ
  probs : List ℚ
  train_loss : List ℚ
  deriving DecidableEq

def emptyPredictions : Predictions := ⟨[], [], [], []⟩

/-- Modelled from the spec: BaseModel._accumulate_results appends one batch's
targets, predicted classes, loss (one scalar per batch) and probabilities. -/
def Predictions.accumulate (p : Predictions) (targets classes : List ℚ) (loss : ℚ)
    (probs : List ℚ) : Predictions :=
  { target := p.target ++ targets
    predicted := p.predicted ++ classes
    probs := p.probs ++ probs
    train_loss := p.train_loss ++ [loss] }

/-- One batch as yielded by a BatchSource: {"inputs": ..., "targets": ...}. -/
structure Batch where
  inputs : List ℚ
  targets : List ℚ
  deriving DecidableEq

/-- A BatchSource / DataLoader: `declaredLen` is what len() reports and
`batches` is what iterating it actually yields.  A well behaved loader has
`declaredLen = batches.length`; a loader whose iterator raises before
len() batches were served is modelled by `declaredLen > batches.length`. -/
structure Loader where
  declaredLen : ℕ
  batches : List Batch
  deriving DecidableEq

/-- External capabilities: the concrete network's forward pass (a function of
the current parameters), the loss function, and the net effect on the
parameters of one zero_grad/backward/step cycle on one batch. -/
structure Ops (Θ : Type) where
  forward : Θ → List ℚ → List ℚ
  loss : List ℚ → List ℚ → ℚ
  update : Θ → Batch → Θ

/-- The mutable state of a BaseBinaryClassifier instance. -/
structure NetState (Θ : Type) where
  params : Θ
  mode : Mode
  preds : Predictions
  epoch : ℕ
  fold : ℕ
  deriving DecidableEq

/-- Local buffers of BaseBinaryClassifier.evaluate (all_targets, all_probs,
all_predictions, losses), lines 103-106. -/
structure ValBuffers where
  all_targets : List ℚ
  all_probs : List ℚ
  all_predictions : List ℚ
  losses : List ℚ
  deriving DecidableEq

/-- Result of running a stateful method: final state, event trace, and the
returned value or the exception that escaped. -/
structure Outcome (Θ : Type) (α : Type) where
  state : NetState Θ
  trace : List Event
  result : Except PyError α

/-- best_loss as used in fit: float("inf") or a finite value. -/
inductive LossVal
  | fin (q : ℚ)
  | inf
  deriving DecidableEq

/-- The comparison stats["val_loss"] < best_loss (line 158): the left side is
always finite. -/
def LossVal.ltVal (v : ℚ) : LossVal → Bool
  | .inf => true
  | .fin b => decide (v < b)

/-- best_loss = min(best_loss, val_loss) (line 159). -/
def LossVal.minVal : LossVal → ℚ → LossVal
  | .inf, v => .fin v
  | .fin b, v => .fin (min b v)

/-- BaseBinaryClassifier._get_classes on one score: (score > 0.5).float(). -/
def getClass (score : ℚ) : ℚ := if score > 1/2 then 1 else 0

/-- BaseBinaryClassifier._get_classes over a whole tensor of scores. -/
def get_classes (predictions : List ℚ) : List ℚ := predictions.map getClass

/-- Python's sum(xs) / len(xs): raises ZeroDivisionError when the list is
empty, since the denominator is 0. -/
def pyMean (xs : List ℚ) : Except PyError ℚ :=
  if xs.length = 0 then .error .zeroDivisionError else .ok (xs.sum / xs.length)

/-- Count of pairs with target 1 and prediction 1. -/
def truePositives (t p : List ℚ) : ℕ :=
  ((t.zip p).filter (fun x => x.1 == 1 && x.2 == 1)).length

/-- Count of pairs with target not 1 and prediction 1. -/
def falsePositives (t p : List ℚ) : ℕ :=
  ((t.zip p).filter (fun x => x.1 != 1 && x.2 == 1)).length

/-- Count of pairs with target 1 and prediction not 1. -/
def falseNegatives (t p : List ℚ) : ℕ :=
  ((t.zip p).filter (fun x => x.1 == 1 && x.2 != 1)).length

/-- Count of pairs where prediction equals target. -/
def correctCount (t p : List ℚ) : ℕ :=
  ((t.zip p).filter (fun x => x.1 == x.2)).length

/-- Division with the zero-denominator policy 0 (the spec leaves the
degenerate precision/recall policy open; the value never decides a claim). -/
def safeDiv (a b : ℚ) : ℚ := if b = 0 then 0 else a / b

/-- Modelled from the spec: sklearn.metrics.precision_score with
pos_label 1.0 (external library, specified at the boundary in section 4.2). -/
def precision_score (t p : List ℚ) : ℚ :=
  safeDiv (truePositives t p) (truePositives t p + falsePositives t p)

/-- Modelled from the spec: sklearn.metrics.recall_score with pos_label 1.0. -/
def recall_score (t p : List ℚ) : ℚ :=
  safeDiv (truePositives t p) (truePositives t p + falseNegatives t p)

/-- Modelled from the spec: sklearn.metrics.accuracy_score. -/
def accuracy_score (t p : List ℚ) : ℚ :=
  safeDiv (correctCount t p) t.length

/-- Modelled from the spec: the ranking metric of section 4.2
(sklearn.metrics.roc_curve followed by sklearn.metrics.auc, pos_label 1.0;
external library, not under src/).  It requires both classes present in the
targets and fails with MetricUndefined when only one class is present;
otherwise it is the area under the ROC curve, computed here in its
equivalent Mann-Whitney form. -/
def roc_auc (target_y pred_y : List ℚ) : Except PyError ℚ :=
  let pairs := target_y.zip pred_y
  let pos := (pairs.filter (fun x => x.1 == 1)).map Prod.snd
  let neg := (pairs.filter (fun x => x.1 != 1)).map Prod.snd
  if pos.length = 0 || neg.length = 0 then
    .error .metricUndefined
  else
    let wins : ℚ :=
      (pos.map (fun sp =>
        (neg.map (fun sn => if sn < sp then (1 : ℚ) else if sn = sp then 1/2 else 0)).sum)).sum
    .ok (wins / (pos.length * neg.length))

/-- BaseBinaryClassifier._compute_metrics (lines 71-86): classification
metrics (precision, recall, acc) or the ranking metric (auc), with every key
prefixed by "val_" when `training` is false. -/
def compute_metrics (target_y pred_y : List ℚ)
    (predictions_are_classes : Bool) (training : Bool) :
    Except PyError (List (String × ℚ)) :=
  let pfx := if training then ("") else ("val_")
  if predictions_are_classes then
    .ok ([("precision", precision_score target_y pred_y),
          ("recall", recall_score target_y pred_y),
          ("acc", accuracy_score target_y pred_y)].map (fun kv => (pfx ++ kv.1, kv.2)))
  else
    match roc_auc target_y pred_y with
    | .error e => .error e
    | .ok a => .ok ([("auc", a)].map (fun kv => (pfx ++ kv.1, kv.2)))

/-- The body of the inner training loop of fit (lines 144-156): forward pass,
classification, zero_grad, loss, backward, optimizer step, accumulation into
the shared Predictions store. -/
def processBatch {Θ : Type} (ops : Ops Θ) (st : NetState Θ) (b : Batch) :
    NetState Θ × List Event :=
  let scores := ops.forward st.params b.inputs
  let classes := get_classes scores
  let lossVal := ops.loss scores b.targets
  ({ st with
      params := ops.update st.params b
      preds := st.preds.accumulate b.targets classes lossVal scores },
   [Event.forwardPass scores, Event.classified classes, Event.zeroGrad,
    Event.lossComputed lossVal, Event.backward, Event.optimStep, Event.accumulated])

/-- The loop `for i in range(iter_per_epoch)` over one data_loader's iterator
(lines 141-156): the first argument is len(data_loader), the second the
batches the iterator still has; fetching from an exhausted iterator raises
StopIteration. -/
def runBatchLoop {Θ : Type} (ops : Ops Θ) :
    ℕ → List Batch → NetState Θ → NetState Θ × List Event × Option PyError
  | 0, _, st => (st, [], none)
  | _ + 1, [], st => (st, [], some .stopIteration)
  | n + 1, b :: rest, st =>
    let r := processBatch ops st b
    let r2 := runBatchLoop ops n rest r.1
    (r2.1, r.2 ++ r2.2.1, r2.2.2)

/-- The loop `for data_loader in data_loaders` of one epoch (line 140). -/
def runLoaders {Θ : Type} (ops : Ops Θ) :
    List Loader → NetState Θ → NetState Θ × List Event × Option PyError
  | [], st => (st, [], none)
  | l :: rest, st =>
    match runBatchLoop ops l.declaredLen l.batches st with
    | (st1, tr, some err) => (st1, tr, some err)
    | (st1, tr, none) =>
      let r := runLoaders ops rest st1
      (r.1, tr ++ r.2.1, r.2.2)

/-- The validation loop of evaluate (lines 101-117): runs the declared number
of batches, accumulating targets, probabilities, predicted classes and
(when a loss function was given) per-batch losses into the local buffers. -/
def valLoop {Θ : Type} (ops : Ops Θ) (useLoss : Bool) :
    ℕ → List Batch → NetState Θ → ValBuffers →
    NetState Θ × ValBuffers × Option PyError
  | 0, _, st, bufs => (st, bufs, none)
  | _ + 1, [], st, bufs => (st, bufs, some .stopIteration)
  | n + 1, b :: rest, st, bufs =>
    let probs := ops.forward st.params b.inputs
    let classes := get_classes probs
    valLoop ops useLoss n rest st
      { all_targets := bufs.all_targets ++ b.targets
        all_probs := bufs.all_probs ++ probs
        all_predictions := bufs.all_predictions ++ classes
        losses := if useLoss then bufs.losses ++ [ops.loss probs b.targets] else bufs.losses }

/-- BaseBinaryClassifier.evaluate (lines 88-133).  `useLoss` is the truth
value of the `loss_fn` argument (None or a loss function).  Steps, in the
order of the code: pop the train_loss sequence and take its mean (the
division raises ZeroDivisionError when it is empty), compute the training
classification and ranking metrics from the retained sequences, switch to
inference mode when asked, run the validation loop into local buffers,
compute the validation metrics, take the mean validation loss (again a plain
division), switch back to training mode when asked, log both records, reset
the prediction store, and return the validation record. -/
def evaluate {Θ : Type} (ops : Ops Θ) (st : NetState Θ) (loader : Loader)
    (useLoss : Bool) (switch_to_eval : Bool) : Outcome Θ (List (String × ℚ)) :=
  let st1 : NetState Θ := { st with preds := { st.preds with train_loss := [] } }
  match pyMean st.preds.train_loss with
  | .error e => ⟨st1, [], .error e⟩
  | .ok train_loss =>
    match compute_metrics st.preds.target st.preds.predicted true true with
    | .error e => ⟨st1, [], .error e⟩
    | .ok train_metrics_1 =>
      match compute_metrics st.preds.target st.preds.probs false true with
      | .error e => ⟨st1, [], .error e⟩
      | .ok train_metrics_2 =>
        let train_metrics := ("train_loss", train_loss) :: (train_metrics_1 ++ train_metrics_2)
        let st2 : NetState Θ :=
          if switch_to_eval then { st1 with mode := Mode.inference } else st1
        let tr0 : List Event := if switch_to_eval then [Event.evalMode] else []
        match valLoop ops useLoss loader.declaredLen loader.batches st2 ⟨[], [], [], []⟩ with
        | (st3, _, some e) => ⟨st3, tr0, .error e⟩
        | (st3, bufs, none) =>
          match compute_metrics bufs.all_targets bufs.all_predictions true false with
          | .error e => ⟨st3, tr0, .error e⟩
          | .ok computed_metrics =>
            match compute_metrics bufs.all_targets bufs.all_probs false false with
            | .error e => ⟨st3, tr0, .error e⟩
            | .ok computed_metrics_1 =>
              match pyMean bufs.losses with
              | .error e => ⟨st3, tr0, .error e⟩
              | .ok val_loss =>
                let computed := computed_metrics ++ (("val_loss", val_loss) :: computed_metrics_1)
                let st4 : NetState Θ :=
                  if switch_to_eval then { st3 with mode := Mode.training } else st3
                let tr1 : List Event := if switch_to_eval then [Event.trainMode] else []
                let trLog : List Event :=
                  [Event.logged (List.map Prod.fst train_metrics) true,
                   Event.logged (List.map Prod.fst computed) false]
                ⟨{ st4 with preds := emptyPredictions }, tr0 ++ tr1 ++ trLog, .ok computed⟩

/-- The epoch loop of fit (lines 137-160), recursing over the list of epoch
indices: set self._epoch, run all training loaders, evaluate
(switch_to_eval=True, with the loss function), read stats["val_loss"]
(a missing key would be a Python KeyError), compute is_best, update
best_loss, and save the checkpoint "clf_<e+1>_fold_<fold>" with is_best. -/
def fitEpochs {Θ : Type} (ops : Ops Θ) (loaders : List Loader) (valLoader : Loader) :
    List ℕ → NetState Θ → LossVal → Outcome Θ LossVal
  | [], st, best => ⟨st, [], .ok best⟩
  | e :: rest, st, best =>
    match runLoaders ops loaders { st with epoch := e } with
    | (st2, tr, some err) => ⟨st2, tr, .error err⟩
    | (st2, tr, none) =>
      let o := evaluate ops st2 valLoader true true
      match o.result with
      | .error err => ⟨o.state, tr ++ o.trace, .error err⟩
      | .ok stats =>
        match stats.lookup ("val_loss") with
        | none => ⟨o.state, tr ++ o.trace, .error .keyError⟩
        | some v =>
          let isb : Bool := LossVal.ltVal v best
          let o2 := fitEpochs ops loaders valLoader rest o.state (best.minVal v)
          ⟨o2.state, tr ++ o.trace ++ [Event.checkpoint (e + 1) o.state.fold isb] ++ o2.trace,
           o2.result⟩

/-- BaseBinaryClassifier.fit (lines 135-161): best_loss starts at
float("inf") and the epoch loop runs over range(num_epochs). -/
def fit {Θ : Type} (ops : Ops Θ) (st : NetState Θ) (loaders : List Loader)
    (valLoader : Loader) (num_epochs : ℕ) : Outcome Θ LossVal :=
  fitEpochs ops loaders valLoader (List.range num_epochs) st LossVal.inf

/-- Observer of a fit run: the sequence of the actual per-epoch validation
losses, i.e. for every epoch the value stats["val_loss"] that evaluate
returned in that epoch (line 158), obtained by replaying exactly the steps
of fitEpochs and projecting that value out; fails where the run fails. -/
def epochLosses {Θ : Type} (ops : Ops Θ) (loaders : List Loader) (valLoader : Loader) :
    List ℕ → NetState Θ → Except PyError (List ℚ)
  | [], _ => .ok []
  | e :: rest, st =>
    match runLoaders ops loaders { st with epoch := e } with
    | (_, _, some err) => .error err
    | (st2, _, none) =>
      let o := evaluate ops st2 valLoader true true
      match o.result with
      | .error err => .error err
      | .ok stats =>
        match stats.lookup ("val_loss") with
        | none => .error .keyError
        | some v =>
          match epochLosses ops loaders valLoader rest o.state with
          | .error err => .error err
          | .ok vs => .ok (v :: vs)

/-- Boolean success test for an Except result. -/
def isOkE {α : Type} : Except PyError α → Bool
  | .ok _ => true
  | .error _ => false

/-- Reference recurrence for one epoch of training over a flat list of
batches: the event block of each batch in order, with the parameters and the
prediction store threaded through (never reset in between).  Returns
(trace, final params, final predictions). -/
def epochSpec {Θ : Type} (ops : Ops Θ) : List Batch → Θ → Predictions →
    List Event × Θ × Predictions
  | [], p, a => ([], p, a)
  | b :: bs, p, a =>
    let scores := ops.forward p b.inputs
    let classes := get_classes scores
    let lossVal := ops.loss scores b.targets
    let rest := epochSpec ops bs (ops.update p b) (a.accumulate b.targets classes lossVal scores)
    ([Event.forwardPass scores, Event.classified classes, Event.zeroGrad,
      Event.lossComputed lossVal, Event.backward, Event.optimStep, Event.accumulated]
       ++ rest.1,
     rest.2)

/-- Reference recurrence for the validation loop: what it contributes to the
four local buffers (targets, probabilities, classes, losses) and whether it
raises, as a function of the declared length and the available batches. -/
def valGather {Θ : Type} (ops : Ops Θ) (p : Θ) :
    ℕ → List Batch → List ℚ × List ℚ × List ℚ × List ℚ × Option PyError
  | 0, _ => ([], [], [], [], none)
  | _ + 1, [] => ([], [], [], [], some .stopIteration)
  | n + 1, b :: rest =>
    let scores := ops.forward p b.inputs
    let r := valGather ops p n rest
    (b.targets ++ r.1, scores ++ r.2.1, get_classes scores ++ r.2.2.1,
     ops.loss scores b.targets :: r.2.2.2.1, r.2.2.2.2)

/-- The checkpoint data visible in an event: (epoch+1, is_best). -/
def ckptData : Event → Option (ℕ × Bool)
  | .checkpoint e _ b => some (e, b)
  | _ => none

/-- Reference recurrence for the per-epoch checkpoint records of one fold:
given the running best loss, the epoch indices and the per-epoch validation
losses, each epoch saves one checkpoint flagged best exactly when its
validation loss strictly improves on the running best. -/
def ckptSpec : LossVal → List ℕ → List ℚ → List (ℕ × Bool)
  | _, [], _ => []
  | _, _ :: _, [] => []
  | best, e :: es, v :: vs => (e + 1, LossVal.ltVal v best) :: ckptSpec (best.minVal v) es vs

/-- Folding min over the validation losses of a fold, starting from `best`. -/
def foldBest (best : LossVal) (vals : List ℚ) : LossVal :=
  vals.foldl LossVal.minVal best

/-- A trivial concrete classifier for witnesses: the forward pass returns the
inputs as scores, the loss is constantly 1, the optimizer step keeps the
(unit) parameters. -/
def opsU : Ops Unit :=
  { forward := fun _ xs => xs, loss := fun _ _ => 1, update := fun p _ => p }

/-- A freshly constructed classifier state (fold 0). -/
def st0 : NetState Unit :=
  { params := (), mode := Mode.training, preds := emptyPredictions, epoch := 0, fold := 0 }

/-- A state right after one training batch with targets [0, 1] and scores
[1/4, 3/4]: both classes are present in the accumulated sequences. -/
def stTrained : NetState Unit :=
  { st0 with
      preds := { target := [0, 1], predicted := [0, 1], probs := [1/4, 3/4], train_loss := [1] } }

/-- A well behaved one-batch loader with targets of both classes. -/
def loader1 : Loader :=
  { declaredLen := 1, batches := [{ inputs := [1/4, 3/4], targets := [0, 1] }] }

/-- A loader whose iterator raises: it declares one batch but yields none. -/
def badLoader : Loader := { declaredLen := 1, batches := [] }

theorem appendPrecision : ("val_" ++ "precision" : String) = "val_precision" := rfl

theorem appendRecall : ("val_" ++ "recall" : String) = "val_recall" := rfl

theorem appendAcc : ("val_" ++ "acc" : String) = "val_acc" := rfl

theorem appendAuc : ("val_" ++ "auc" : String) = "val_auc" := rfl

theorem emptyAppend (s : String) : ("" ++ s : String) = s := by
  cases s
  rfl

theorem beqLossPrecision : (("val_loss" : String) == "val_precision") = false := rfl

theorem beqLossRecall : (("val_loss" : String) == "val_recall") = false := rfl

theorem beqLossAcc : (("val_loss" : String) == "val_acc") = false := rfl

theorem beqLossLoss : (("val_loss" : String) == "val_loss") = true := rfl

theorem valLoop_state {Θ : Type} (ops : Ops Θ) (useLoss : Bool) :
    ∀ (n : ℕ) (bs : List Batch) (st : NetState Θ) (bufs : ValBuffers),
      (valLoop ops useLoss n bs st bufs).1 = st := by
  intro n
  induction n with
  | zero => intro bs st bufs; rfl
  | succ n ih =>
    intro bs st bufs
    cases bs with
    | nil => rfl
    | cons b rest => simp only [valLoop]; exact ih rest st _

theorem valLoop_eq {Θ : Type} (ops : Ops Θ) (useLoss : Bool) :
    ∀ (n : ℕ) (bs : List Batch) (st : NetState Θ) (bufs : ValBuffers),
      valLoop ops useLoss n bs st bufs =
        (st,
         { all_targets := bufs.all_targets ++ (valGather ops st.params n bs).1
           all_probs := bufs.all_probs ++ (valGather ops st.params n bs).2.1
           all_predictions := bufs.all_predictions ++ (valGather ops st.params n bs).2.2.1
           losses := bufs.losses ++
             (if useLoss then (valGather ops st.params n bs).2.2.2.1 else []) },
         (valGather ops st.params n bs).2.2.2.2) := by
  intro n
  induction n with
  | zero =>
    intro bs st bufs
    cases bufs
    simp [valLoop, valGather]
  | succ n ih =>
    intro bs st bufs
    cases bs with
    | nil =>
      cases bufs
      simp [valLoop, valGather]
    | cons b rest =>
      simp only [valLoop, valGather, ih rest st]
      cases useLoss <;> simp [List.append_assoc]

/-- C6: for every score, classification yields the positive class 1.0 exactly
when the score is strictly greater than 0.5 and yields 0.0 otherwise; in
particular the boundary score 0.5 is classified as 0.0. -/
theorem C6_classify_threshold (s : ℚ) :
    (getClass s = 1 ↔ 1/2 < s) ∧ (getClass s = 0 ↔ ¬ 1/2 < s) ∧
      getClass (1/2) = 0 ∧ (∀ scores : List ℚ, get_classes scores = scores.map getClass) := by
  refine ⟨?_, ?_, by norm_num [getClass], fun scores => rfl⟩ <;>
    by_cases h : 1/2 < s <;> simp [getClass, h]

/-- C7: the record produced by _compute_metrics carries unprefixed keys when
training is true, and the same keys prefixed with "val_" when training is
false, in both the classification branch and the ranking branch. -/
theorem C7_metric_prefixing (t p : List ℚ) :
    (compute_metrics t p true true).map (fun m => m.map Prod.fst)
        = .ok ["precision", "recall", "acc"] ∧
    (compute_metrics t p true false).map (fun m => m.map Prod.fst)
        = .ok ["val_precision", "val_recall", "val_acc"] ∧
    (compute_metrics t p false true).map (fun m => m.map Prod.fst)
        = (roc_auc t p).map (fun _ => ["auc"]) ∧
    (compute_metrics t p false false).map (fun m => m.map Prod.fst)
        = (roc_auc t p).map (fun _ => ["val_auc"]) := by
  refine ⟨?_, ?_, ?_, ?_⟩
  · simp [compute_metrics, Except.map, emptyAppend]
  · simp [compute_metrics, Except.map, appendPrecision, appendRecall, appendAcc]
  · rcases h : roc_auc t p with e | a <;>
      simp [compute_metrics, Except.map, h, emptyAppend]
  · rcases h : roc_auc t p with e | a <;>
      simp [compute_metrics, Except.map, h, appendAuc]

/-- C5: whenever the targets contain only a single class (all 1.0 or all
0.0), the ranking-metric branch of _compute_metrics fails with the
MetricUndefined condition instead of returning a value. -/
theorem C5_auc_single_class (t p : List ℚ) (training : Bool)
    (h : (∀ x ∈ t, x = 1) ∨ (∀ x ∈ t, x = 0)) :
    compute_metrics t p false training = .error .metricUndefined := by
  have hauc : roc_auc t p = .error .metricUndefined := by
    unfold roc_auc
    rcases h with h | h
    · have hn : (t.zip p).filter (fun x => x.1 != 1) = [] := by
        rw [List.filter_eq_nil_iff]
        intro a ha
        have h1 := (List.of_mem_zip ha).1
        simp [h a.1 h1]
      simp [hn]
    · have hp : (t.zip p).filter (fun x => x.1 == 1) = [] := by
        rw [List.filter_eq_nil_iff]
        intro a ha
        have h1 := (List.of_mem_zip ha).1
        have h0 := h a.1 h1
        norm_num [h0]
      simp [hp]
  unfold compute_metrics
  simp [hauc]

/-- Witness for C5 at targets [1, 1] (only the positive class present). -/
theorem C5_witness :
    ((∀ x ∈ ([1, 1] : List ℚ), x = 1) ∨ (∀ x ∈ ([1, 1] : List ℚ), x = 0)) ∧
      compute_metrics [1, 1] [1/2, 1/3] false true = .error .metricUndefined := by
  have h : (∀ x ∈ ([1, 1] : List ℚ), x = 1) ∨ (∀ x ∈ ([1, 1] : List ℚ), x = 0) :=
    Or.inl (by norm_num)
  exact ⟨h, C5_auc_single_class [1, 1] [1/2, 1/3] true h⟩

/-- C10: with num_epochs = 0 the fit loop does nothing at all: the state is
untouched, the trace is empty (no batch processed, no evaluate call, no mode
switch, no checkpoint) and the returned best loss is +infinity. -/
theorem C10_zero_epochs {Θ : Type} (ops : Ops Θ) (st : NetState Θ)
    (loaders : List Loader) (valLoader : Loader) :
    fit ops st loaders valLoader 0 = ⟨st, [], .ok LossVal.inf⟩ := rfl

/-- C3 counterexample: on an empty train_loss sequence, evaluate fails with
ZeroDivisionError (the division sum/len is performed with len 0), not with a
NoTrainingData condition as the claim states. -/
theorem C3_counterexample :
    (evaluate opsU st0 loader1 true false).result = .error .zeroDivisionError ∧
      (evaluate opsU st0 loader1 true false).result ≠ .error .noTrainingData := by
  constructor <;> decide

/-- C3 as amended: when the accumulator's train_loss sequence is empty, the
mean-training-loss step of evaluate raises ZeroDivisionError — the failure is
the division by zero itself; there is no NoTrainingData guard — and nothing
else happens (no event, state unchanged apart from the already-empty
train_loss having been popped). -/
theorem C3_amended {Θ : Type} (ops : Ops Θ) (st : NetState Θ) (loader : Loader)
    (useLoss switch_to_eval : Bool) (h : st.preds.train_loss = []) :
    evaluate ops st loader useLoss switch_to_eval = ⟨st, [], .error .zeroDivisionError⟩ := by
  obtain ⟨pa, mo, ⟨t, pd, pb, tl⟩, ep, fo⟩ := st
  simp only at h
  subst h
  rfl

/-- Witness for C3_amended at a concrete freshly-reset state. -/
theorem C3_amended_witness :
    st0.preds.train_loss = [] ∧
      evaluate opsU st0 loader1 true false = ⟨st0, [], .error .zeroDivisionError⟩ :=
  ⟨rfl, C3_amended opsU st0 loader1 true false rfl⟩

/-- C9 counterexample: calling evaluate without a loss function on otherwise
good inputs fails with ZeroDivisionError at the mean-validation-loss step
(the division is performed with an empty losses buffer), not with a
NoValidationData condition as the claim states. -/
theorem C9_counterexample :
    (evaluate opsU stTrained loader1 false true).result = .error .zeroDivisionError ∧
      (evaluate opsU stTrained loader1 false true).result ≠ .error .noValidationData := by
  constructor <;> decide

/-- C4 counterexample: with the switch flag set and a validation BatchSource
that raises (it declares one batch but yields none), evaluate propagates
StopIteration and leaves the classifier in inference mode: the mode is not
switched back to training on this exit path. -/
theorem C4_counterexample :
    (evaluate opsU stTrained badLoader true true).result = .error .stopIteration ∧
      stTrained.mode = Mode.training ∧
      (evaluate opsU stTrained badLoader true true).state.mode = Mode.inference ∧
      (evaluate opsU stTrained badLoader true true).state.mode ≠ Mode.training := by
  refine ⟨?_, rfl, ?_, ?_⟩ <;> decide

theorem compute_metrics_classes (t p : List ℚ) (tr : Bool) :
    compute_metrics t p true tr =
      .ok ([("precision", precision_score t p), ("recall", recall_score t p),
            ("acc", accuracy_score t p)].map
        (fun kv => ((if tr then ("") else ("val_")) ++ kv.1, kv.2))) := rfl

theorem compute_metrics_ranking_ok (t p : List ℚ) (tr : Bool) (a : ℚ)
    (h : roc_auc t p = .ok a) :
    compute_metrics t p false tr = .ok [((if tr then ("") else ("val_")) ++ "auc", a)] := by
  unfold compute_metrics
  simp [h]

theorem compute_metrics_ranking_err (t p : List ℚ) (tr : Bool) (e : PyError)
    (h : roc_auc t p = .error e) :
    compute_metrics t p false tr = .error e := by
  unfold compute_metrics
  simp [h]

theorem evaluate_ok_preds {Θ : Type} (ops : Ops Θ) (st : NetState Θ) (loader : Loader)
    (u s : Bool) (h : isOkE (evaluate ops st loader u s).result = true) :
    ((evaluate ops st loader u s).state).preds = emptyPredictions := by
  unfold evaluate at h ⊢
  rcases h1 : pyMean st.preds.train_loss with e | tl
  · rw [h1] at h
    simp [isOkE] at h
  simp only [h1] at h ⊢
  simp only [compute_metrics_classes] at h ⊢
  rcases h2 : roc_auc st.preds.target st.preds.probs with e | a
  · simp only [compute_metrics_ranking_err _ _ true _ h2] at h
    simp [isOkE] at h
  simp only [compute_metrics_ranking_ok _ _ true _ h2] at h ⊢
  rw [valLoop_eq] at h ⊢
  simp only [apply_ite NetState.params, ite_self] at h ⊢
  rcases h3 : (valGather ops st.params loader.declaredLen loader.batches).2.2.2.2 with _ | e
  · simp only [h3] at h ⊢
    simp only [List.nil_append] at h ⊢
    rcases h4 : roc_auc (valGather ops st.params loader.declaredLen loader.batches).1
        (valGather ops st.params loader.declaredLen loader.batches).2.1 with e | b
    · simp only [compute_metrics_ranking_err _ _ false _ h4] at h
      simp [isOkE] at h
    simp only [compute_metrics_ranking_ok _ _ false _ h4] at h ⊢
    rcases h5 : pyMean (if u then
        (valGather ops st.params loader.declaredLen loader.batches).2.2.2.1 else []) with e | v
    · simp only [h5] at h
      simp [isOkE] at h
    simp only [h5] at h ⊢
  · simp only [h3] at h
    simp [isOkE] at h

theorem pyMean_error (xs : List ℚ) (e : PyError) (h : pyMean xs = .error e) :
    e = .zeroDivisionError := by
  unfold pyMean at h
  split at h <;> simp_all

theorem roc_auc_error (t p : List ℚ) (e : PyError) (h : roc_auc t p = .error e) :
    e = .metricUndefined := by
  simp only [roc_auc] at h
  split at h <;> simp_all

theorem evaluate_ok_mode {Θ : Type} (ops : Ops Θ) (st : NetState Θ) (loader : Loader)
    (u s : Bool) (h : isOkE (evaluate ops st loader u s).result = true) :
    ((evaluate ops st loader u s).state).mode = if s then Mode.training else st.mode := by
  unfold evaluate at h ⊢
  rcases h1 : pyMean st.preds.train_loss with e | tl
  · rw [h1] at h
    simp [isOkE] at h
  simp only [h1] at h ⊢
  simp only [compute_metrics_classes] at h ⊢
  rcases h2 : roc_auc st.preds.target st.preds.probs with e | a
  · simp only [compute_metrics_ranking_err _ _ true _ h2] at h
    simp [isOkE] at h
  simp only [compute_metrics_ranking_ok _ _ true _ h2] at h ⊢
  rw [valLoop_eq] at h ⊢
  simp only [apply_ite NetState.params, ite_self] at h ⊢
  rcases h3 : (valGather ops st.params loader.declaredLen loader.batches).2.2.2.2 with _ | e
  · simp only [h3] at h ⊢
    simp only [List.nil_append] at h ⊢
    rcases h4 : roc_auc (valGather ops st.params loader.declaredLen loader.batches).1
        (valGather ops st.params loader.declaredLen loader.batches).2.1 with e | b
    · simp only [compute_metrics_ranking_err _ _ false _ h4] at h
      simp [isOkE] at h
    simp only [compute_metrics_ranking_ok _ _ false _ h4] at h ⊢
    rcases h5 : pyMean (if u then
        (valGather ops st.params loader.declaredLen loader.batches).2.2.2.1 else []) with e | v
    · simp only [h5] at h
      simp [isOkE] at h
    simp only [h5] at h ⊢
    cases s <;> simp
  · simp only [h3] at h
    simp [isOkE] at h

theorem evaluate_stop_mode {Θ : Type} (ops : Ops Θ) (st : NetState Θ) (loader : Loader)
    (u s : Bool) (h : (evaluate ops st loader u s).result = .error .stopIteration) :
    ((evaluate ops st loader u s).state).mode = if s then Mode.inference else st.mode := by
  unfold evaluate at h ⊢
  rcases h1 : pyMean st.preds.train_loss with e | tl
  · have he := pyMean_error _ _ h1
    subst he
    rw [h1] at h
    simp at h
  simp only [h1] at h ⊢
  simp only [compute_metrics_classes] at h ⊢
  rcases h2 : roc_auc st.preds.target st.preds.probs with e | a
  · have he := roc_auc_error _ _ _ h2
    subst he
    simp only [compute_metrics_ranking_err _ _ true _ h2] at h
    simp at h
  simp only [compute_metrics_ranking_ok _ _ true _ h2] at h ⊢
  rw [valLoop_eq] at h ⊢
  simp only [apply_ite NetState.params, ite_self] at h ⊢
  rcases h3 : (valGather ops st.params loader.declaredLen loader.batches).2.2.2.2 with _ | e
  · simp only [h3] at h ⊢
    simp only [List.nil_append] at h ⊢
    rcases h4 : roc_auc (valGather ops st.params loader.declaredLen loader.batches).1
        (valGather ops st.params loader.declaredLen loader.batches).2.1 with e | b
    · have he := roc_auc_error _ _ _ h4
      subst he
      simp only [compute_metrics_ranking_err _ _ false _ h4] at h
      simp at h
    simp only [compute_metrics_ranking_ok _ _ false _ h4] at h ⊢
    rcases h5 : pyMean (if u then
        (valGather ops st.params loader.declaredLen loader.batches).2.2.2.1 else []) with e | v
    · have he := pyMean_error _ _ h5
      subst he
      simp only [h5] at h
      simp at h
    simp only [h5] at h
    simp at h
  · simp only [h3, apply_ite NetState.mode]

/-- C4 as amended: (1) the validation loop itself never changes the
classifier state, so the mode set before it (inference, when the flag is
given) holds for the whole validation pass; (2) with the flag set, the
classifier is back in training mode whenever the call returns normally;
(3) but when the validation BatchSource raises StopIteration, the call is
left in inference mode — the code has no finally-style restore, so the mode
is not switched back on the error exit path. -/
theorem C4_mode_restore :
    (∀ (Θ : Type) (ops : Ops Θ) (u : Bool) (n : ℕ) (bs : List Batch)
        (st : NetState Θ) (bufs : ValBuffers),
        ((valLoop ops u n bs st bufs).1).mode = st.mode) ∧
    (∀ (Θ : Type) (ops : Ops Θ) (st : NetState Θ) (loader : Loader) (u : Bool),
        isOkE (evaluate ops st loader u true).result = true →
        ((evaluate ops st loader u true).state).mode = Mode.training) ∧
    (∀ (Θ : Type) (ops : Ops Θ) (st : NetState Θ) (loader : Loader) (u : Bool),
        (evaluate ops st loader u true).result = .error .stopIteration →
        ((evaluate ops st loader u true).state).mode = Mode.inference) := by
  refine ⟨?_, ?_, ?_⟩
  · intro Θ ops u n bs st bufs
    rw [valLoop_state]
  · intro Θ ops st loader u h
    rw [evaluate_ok_mode ops st loader u true h]
    simp
  · intro Θ ops st loader u h
    rw [evaluate_stop_mode ops st loader u true h]
    simp

/-- Witness for C4_mode_restore: a successful call that ends in training
mode, and a call on a raising BatchSource that ends in inference mode. -/
theorem C4_witness :
    isOkE (evaluate opsU stTrained loader1 true true).result = true ∧
    ((evaluate opsU stTrained loader1 true true).state).mode = Mode.training ∧
    (evaluate opsU stTrained badLoader true true).result = .error .stopIteration ∧
    ((evaluate opsU stTrained badLoader true true).state).mode = Mode.inference := by
  have h1 : isOkE (evaluate opsU stTrained loader1 true true).result = true := by decide
  have h2 : (evaluate opsU stTrained badLoader true true).result = .error .stopIteration := by
    decide
  exact ⟨h1, C4_mode_restore.2.1 Unit opsU stTrained loader1 true h1, h2,
    C4_mode_restore.2.2 Unit opsU stTrained badLoader true h2⟩

/-- C8: (1) the validation loop leaves the classifier state — in particular
the shared prediction accumulator — completely untouched: all per-batch
validation data goes into the call's local buffers only; (2) whenever
evaluate returns normally, the shared accumulator has been reset to empty. -/
theorem C8_validation_frame :
    (∀ (Θ : Type) (ops : Ops Θ) (u : Bool) (n : ℕ) (bs : List Batch)
        (st : NetState Θ) (bufs : ValBuffers),
        (valLoop ops u n bs st bufs).1 = st) ∧
    (∀ (Θ : Type) (ops : Ops Θ) (st : NetState Θ) (loader : Loader) (u s : Bool),
        isOkE (evaluate ops st loader u s).result = true →
        ((evaluate ops st loader u s).state).preds = emptyPredictions) :=
  ⟨fun _ ops u n bs st bufs => valLoop_state ops u n bs st bufs,
   fun _ ops st loader u s h => evaluate_ok_preds ops st loader u s h⟩

/-- Witness for C8_validation_frame on a concrete successful evaluation. -/
theorem C8_witness :
    isOkE (evaluate opsU stTrained loader1 true true).result = true ∧
    ((evaluate opsU stTrained loader1 true true).state).preds = emptyPredictions := by
  have h : isOkE (evaluate opsU stTrained loader1 true true).result = true := by decide
  exact ⟨h, C8_validation_frame.2 Unit opsU stTrained loader1 true true h⟩

/-- C9 as amended: when evaluate is called with no loss function, the local
losses buffer stays empty and the mean-validation-loss step fails by
performing the division sum(losses)/len(losses) with len 0 — a
ZeroDivisionError, not a NoValidationData condition.  (The hypothesis that
the same call with a loss function succeeds pins down that every earlier
step of the call is fine, so the failure is exactly the mean step.) -/
theorem C9_amended {Θ : Type} (ops : Ops Θ) (st : NetState Θ) (loader : Loader)
    (h : isOkE (evaluate ops st loader true true).result = true) :
    (evaluate ops st loader false true).result = .error .zeroDivisionError := by
  unfold evaluate at h ⊢
  rcases h1 : pyMean st.preds.train_loss with e | tl
  · rw [h1] at h
    simp [isOkE] at h
  simp only [h1] at h ⊢
  simp only [compute_metrics_classes] at h ⊢
  rcases h2 : roc_auc st.preds.target st.preds.probs with e | a
  · simp only [compute_metrics_ranking_err _ _ true _ h2] at h
    simp [isOkE] at h
  simp only [compute_metrics_ranking_ok _ _ true _ h2] at h ⊢
  simp only [valLoop_eq] at h ⊢
  simp only [apply_ite NetState.params, ite_self] at h ⊢
  rcases h3 : (valGather ops st.params loader.declaredLen loader.batches).2.2.2.2 with _ | e
  · simp only [h3] at h ⊢
    simp only [List.nil_append] at h ⊢
    rcases h4 : roc_auc (valGather ops st.params loader.declaredLen loader.batches).1
        (valGather ops st.params loader.declaredLen loader.batches).2.1 with e | b
    · simp only [compute_metrics_ranking_err _ _ false _ h4] at h
      simp [isOkE] at h
    simp only [compute_metrics_ranking_ok _ _ false _ h4] at h ⊢
    simp [pyMean]
  · simp only [h3] at h
    simp [isOkE] at h

/-- Witness for C9_amended on a concrete state and loader. -/
theorem C9_witness :
    isOkE (evaluate opsU stTrained loader1 true true).result = true ∧
    (evaluate opsU stTrained loader1 false true).result = .error .zeroDivisionError := by
  have h : isOkE (evaluate opsU stTrained loader1 true true).result = true := by decide
  exact ⟨h, C9_amended opsU stTrained loader1 h⟩

theorem runBatchLoop_spec {Θ : Type} (ops : Ops Θ) :
    ∀ (bs : List Batch) (st : NetState Θ),
      runBatchLoop ops bs.length bs st =
        ({ st with params := (epochSpec ops bs st.params st.preds).2.1
                   preds := (epochSpec ops bs st.params st.preds).2.2 },
         (epochSpec ops bs st.params st.preds).1, none) := by
  intro bs
  induction bs with
  | nil => intro st; rfl
  | cons b rest ih =>
    intro st
    simp only [List.length_cons, runBatchLoop, processBatch, epochSpec, ih]

theorem epochSpec_append {Θ : Type} (ops : Ops Θ) :
    ∀ (xs ys : List Batch) (p : Θ) (a : Predictions),
      epochSpec ops (xs ++ ys) p a =
        ((epochSpec ops xs p a).1 ++
           (epochSpec ops ys (epochSpec ops xs p a).2.1 (epochSpec ops xs p a).2.2).1,
         (epochSpec ops ys (epochSpec ops xs p a).2.1 (epochSpec ops xs p a).2.2).2) := by
  intro xs
  induction xs with
  | nil => intro ys p a; simp [epochSpec]
  | cons x xs ih => intro ys p a; simp [epochSpec, ih, List.append_assoc]

/-- C2: one training epoch over well behaved BatchSources (each yields
exactly its declared number of batches) runs without error and is exactly
the sequential reference run over the concatenation of the sources' batches
in list order: every source is exhausted fully, every batch contributes the
event block forward pass / classification / zero_grad / loss computation /
backpropagation / optimizer step / accumulation into the shared prediction
store, and the parameters and the accumulator are threaded through the whole
epoch (never reset between sources). -/
theorem C2_epoch_contract {Θ : Type} (ops : Ops Θ) :
    ∀ (loaders : List Loader) (st : NetState Θ),
      (∀ l ∈ loaders, l.declaredLen = l.batches.length) →
      runLoaders ops loaders st =
        ({ st with
             params := (epochSpec ops (loaders.flatMap Loader.batches) st.params st.preds).2.1
             preds := (epochSpec ops (loaders.flatMap Loader.batches) st.params st.preds).2.2 },
         (epochSpec ops (loaders.flatMap Loader.batches) st.params st.preds).1, none) := by
  intro loaders
  induction loaders with
  | nil =>
    intro st h
    rfl
  | cons l rest ih =>
    intro st h
    have hl : l.declaredLen = l.batches.length := h l (by simp)
    have hrest : ∀ l2 ∈ rest, l2.declaredLen = l2.batches.length :=
      fun l2 hm => h l2 (by simp [hm])
    rw [List.flatMap_cons, epochSpec_append]
    simp only [runLoaders, hl, runBatchLoop_spec]
    rw [ih _ hrest]

/-- Witness for C2_epoch_contract on a concrete one-loader epoch. -/
theorem C2_witness :
    (∀ l ∈ [loader1], l.declaredLen = l.batches.length) ∧
    runLoaders opsU [loader1] st0 =
      ({ st0 with
           params := (epochSpec opsU ([loader1].flatMap Loader.batches) st0.params st0.preds).2.1
           preds := (epochSpec opsU ([loader1].flatMap Loader.batches) st0.params st0.preds).2.2 },
       (epochSpec opsU ([loader1].flatMap Loader.batches) st0.params st0.preds).1, none) := by
  have h : ∀ l ∈ [loader1], l.declaredLen = l.batches.length := by decide
  exact ⟨h, C2_epoch_contract opsU [loader1] st0 h⟩

theorem runBatchLoop_no_ckpt {Θ : Type} (ops : Ops Θ) :
    ∀ (n : ℕ) (bs : List Batch) (st : NetState Θ),
      (((runBatchLoop ops n bs st).2.1).filterMap ckptData) = [] := by
  intro n
  induction n with
  | zero => intro bs st; rfl
  | succ n ih =>
    intro bs st
    cases bs with
    | nil => rfl
    | cons b rest => simp [runBatchLoop, processBatch, ckptData, ih]

theorem runLoaders_no_ckpt {Θ : Type} (ops : Ops Θ) :
    ∀ (ls : List Loader) (st : NetState Θ),
      (((runLoaders ops ls st).2.1).filterMap ckptData) = [] := by
  intro ls
  induction ls with
  | nil => intro st; rfl
  | cons l rest ih =>
    intro st
    rcases hr : runBatchLoop ops l.declaredLen l.batches st with ⟨st1, tr, err⟩
    have htr : tr.filterMap ckptData = [] := by
      have hh := runBatchLoop_no_ckpt ops l.declaredLen l.batches st
      rw [hr] at hh
      exact hh
    cases err with
    | some e => simp [runLoaders, hr, htr]
    | none => simp [runLoaders, hr, htr, ih]

theorem evaluate_no_ckpt {Θ : Type} (ops : Ops Θ) (st : NetState Θ) (loader : Loader)
    (u s : Bool) : (((evaluate ops st loader u s).trace).filterMap ckptData) = [] := by
  unfold evaluate
  rcases h1 : pyMean st.preds.train_loss with e | tl
  · simp [h1]
  simp only [h1]
  simp only [compute_metrics_classes]
  rcases h2 : roc_auc st.preds.target st.preds.probs with e | a
  · simp [compute_metrics_ranking_err _ _ true _ h2]
  simp only [compute_metrics_ranking_ok _ _ true _ h2]
  rw [valLoop_eq]
  simp only [apply_ite NetState.params, ite_self]
  rcases h3 : (valGather ops st.params loader.declaredLen loader.batches).2.2.2.2 with _ | e
  · simp only [h3, List.nil_append]
    rcases h4 : roc_auc (valGather ops st.params loader.declaredLen loader.batches).1
        (valGather ops st.params loader.declaredLen loader.batches).2.1 with e | b
    · simp [compute_metrics_ranking_err _ _ false _ h4, apply_ite (List.filterMap ckptData),
        ckptData]
    simp only [compute_metrics_ranking_ok _ _ false _ h4]
    rcases h5 : pyMean (if u then
        (valGather ops st.params loader.declaredLen loader.batches).2.2.2.1 else []) with e | v <;>
      simp [h5, apply_ite (List.filterMap ckptData), ckptData]
  · simp [h3, apply_ite (List.filterMap ckptData), ckptData]

theorem fitEpochs_ok {Θ : Type} (ops : Ops Θ) (loaders : List Loader) (valLoader : Loader) :
    ∀ (es : List ℕ) (st : NetState Θ) (best b : LossVal),
      (fitEpochs ops loaders valLoader es st best).result = .ok b →
      ∃ vals : List ℚ,
        epochLosses ops loaders valLoader es st = .ok vals ∧
        vals.length = es.length ∧ b = foldBest best vals ∧
        (((fitEpochs ops loaders valLoader es st best).trace).filterMap ckptData) =
          ckptSpec best es vals := by
  intro es
  induction es with
  | nil =>
    intro st best b h
    simp only [fitEpochs] at h
    refine ⟨[], rfl, rfl, ?_, rfl⟩
    simpa [foldBest] using h.symm
  | cons e rest ih =>
    intro st best b h
    rcases hr : runLoaders ops loaders { st with epoch := e } with ⟨st2, tr, err⟩
    have htr : tr.filterMap ckptData = [] := by
      have hh := runLoaders_no_ckpt ops loaders { st with epoch := e }
      rw [hr] at hh
      exact hh
    cases err with
    | some err =>
      simp only [fitEpochs, hr] at h
      simp at h
    | none =>
      simp only [fitEpochs, hr] at h ⊢
      rcases he : (evaluate ops st2 valLoader true true).result with err | stats
      · simp only [he] at h
        simp at h
      simp only [he] at h ⊢
      rcases hl : stats.lookup ("val_loss") with _ | v
      · simp only [hl] at h
        simp at h
      simp only [hl] at h ⊢
      obtain ⟨vals, hE, hlen, hb, hrec⟩ :=
        ih (evaluate ops st2 valLoader true true).state (best.minVal v) b h
      refine ⟨v :: vals, ?_, by simp [hlen], ?_, ?_⟩
      · simp only [epochLosses, hr, he, hl, hE]
      · simpa [foldBest] using hb
      · simp [List.filterMap_append, htr, evaluate_no_ckpt, hrec, ckptData, ckptSpec]

theorem foldBest_fin : ∀ (vals : List ℚ) (q : ℚ),
    foldBest (LossVal.fin q) vals = LossVal.fin (vals.foldl min q) := by
  intro vals
  induction vals with
  | nil => intro q; rfl
  | cons v vs ih => intro q; simpa [foldBest, LossVal.minVal] using ih (min q v)

theorem foldlMin_mem : ∀ (vs : List ℚ) (q : ℚ), vs.foldl min q = q ∨ vs.foldl min q ∈ vs := by
  intro vs
  induction vs with
  | nil => intro q; exact Or.inl rfl
  | cons v vs ih =>
    intro q
    rcases ih (min q v) with h | h
    · rcases min_choice q v with hm | hm
      · exact Or.inl (by rw [List.foldl_cons, h, hm])
      · refine Or.inr ?_
        rw [List.foldl_cons, h, hm]
        exact List.mem_cons_self _ _
    · refine Or.inr ?_
      rw [List.foldl_cons]
      exact List.mem_cons_of_mem _ h

theorem foldlMin_le : ∀ (vs : List ℚ) (q : ℚ),
    vs.foldl min q ≤ q ∧ ∀ w ∈ vs, vs.foldl min q ≤ w := by
  intro vs
  induction vs with
  | nil => intro q; exact ⟨le_refl q, by simp⟩
  | cons v vs ih =>
    intro q
    obtain ⟨h1, h2⟩ := ih (min q v)
    refine ⟨le_trans h1 (min_le_left q v), ?_⟩
    intro w hw
    rcases List.mem_cons.mp hw with hw | hw
    · rw [List.foldl_cons, hw]
      exact le_trans h1 (min_le_right q v)
    · rw [List.foldl_cons]
      exact h2 w hw

/-- C1: for every run of fit that returns normally, the sequence of the
run's actual per-epoch validation losses (the stats["val_loss"] returned by
evaluate in each epoch, as computed by the observer epochLosses) has one
entry per epoch, and over that actual sequence: the fold's best loss starts
at +infinity; one checkpoint is saved after every epoch, flagged is_best
exactly when that epoch's validation loss is strictly below the best loss so
far (ckptSpec folds min over the prefix); and the value fit returns is
foldBest of the sequence, i.e. the minimum of the actual per-epoch
validation losses: it is one of them and is a lower bound of all of them
(+infinity when there are no epochs). -/
theorem C1_fit_best_selection {Θ : Type} (ops : Ops Θ) (st : NetState Θ)
    (loaders : List Loader) (valLoader : Loader) (n : ℕ) (b : LossVal)
    (h : (fit ops st loaders valLoader n).result = .ok b) :
    ∃ vals : List ℚ,
      epochLosses ops loaders valLoader (List.range n) st = .ok vals ∧
      vals.length = n ∧ b = foldBest LossVal.inf vals ∧
      (((fit ops st loaders valLoader n).trace).filterMap ckptData) =
        ckptSpec LossVal.inf (List.range n) vals ∧
      (vals ≠ [] → ∃ q : ℚ, b = LossVal.fin q ∧ q ∈ vals ∧ ∀ w ∈ vals, q ≤ w) := by
  obtain ⟨vals, hE, hlen, hb, htr⟩ :=
    fitEpochs_ok ops loaders valLoader (List.range n) st LossVal.inf b h
  refine ⟨vals, hE, by simpa using hlen, hb, htr, ?_⟩
  intro hne
  rcases vals with _ | ⟨v, vs⟩
  · exact absurd rfl hne
  refine ⟨vs.foldl min v, ?_, ?_, ?_⟩
  · rw [hb]
    have : foldBest LossVal.inf (v :: vs) = foldBest (LossVal.fin v) vs := rfl
    rw [this, foldBest_fin]
  · rcases foldlMin_mem vs v with h1 | h1
    · rw [h1]
      exact List.mem_cons_self _ _
    · exact List.mem_cons_of_mem _ h1
  · intro w hw
    rcases List.mem_cons.mp hw with hw | hw
    · rw [hw]
      exact (foldlMin_le vs v).1
    · exact (foldlMin_le vs v).2 w hw

/-- Witness for C1 on a one-epoch run whose single validation loss is 1. -/
theorem C1_witness :
    (fit opsU st0 [loader1] loader1 1).result = .ok (LossVal.fin 1) ∧
    (∃ vals : List ℚ,
      epochLosses opsU [loader1] loader1 (List.range 1) st0 = .ok vals ∧
      vals.length = 1 ∧ LossVal.fin 1 = foldBest LossVal.inf vals ∧
      (((fit opsU st0 [loader1] loader1 1).trace).filterMap ckptData) =
        ckptSpec LossVal.inf (List.range 1) vals ∧
      (vals ≠ [] → ∃ q : ℚ, LossVal.fin 1 = LossVal.fin q ∧ q ∈ vals ∧ ∀ w ∈ vals, q ≤ w)) := by
  have h : (fit opsU st0 [loader1] loader1 1).result = .ok (LossVal.fin 1) := by
    norm_num [fit, fitEpochs, runLoaders, runBatchLoop, processBatch, Predictions.accumulate,
      evaluate, st0, loader1, opsU, pyMean, compute_metrics, roc_auc,
      valLoop, get_classes, getClass, precision_score, recall_score, accuracy_score,
      safeDiv, truePositives, falsePositives, falseNegatives, correctCount, emptyPredictions,
      List.lookup, LossVal.ltVal, LossVal.minVal,
      appendPrecision, appendRecall, appendAcc, appendAuc,
      beqLossPrecision, beqLossRecall, beqLossAcc, beqLossLoss]
  exact ⟨h, C1_fit_best_selection opsU st0 [loader1] loader1 1 (LossVal.fin 1) h⟩

end Model
